import Mathlib

/-!
Verification development for the pcocc batch coordination layer
(`lib/pcocc/Batch.py`, class `SlurmManager`).

The Python source is embedded shallowly: pure fragments become Lean
functions, stateful fragments become explicit state passing, and the
interactions with the backing etcd store are modelled by scripted store
responses (oracles) consumed one call at a time.
-/

namespace Pcocc

/-- Process types with respect to batch management (class `ProcessType`
in `Batch.py`). -/
inductive ProcessType where
  | SETUP
  | HYPERVISOR
  | LAUNCHER
  | USER
  | OTHER
deriving DecidableEq, Repr

/-- Constant `ETCD_PASSWORD_BYTES` from `Batch.py`. -/
def ETCD_PASSWORD_BYTES : Nat := 16

/-! ## Rank-map builder (`SlurmManager._build_rank_map`) -/

/-- Split a character list on a separator character (models Python
`str.split(sep)`): always returns one (possibly empty) group more than
the number of separator occurrences. -/
def splitOnChar (c : Char) : List Char → List (List Char)
  | [] => [[]]
  | a :: rest =>
    if a = c then [] :: splitOnChar c rest
    else
      match splitOnChar c rest with
      | [] => [[a]]
      | g :: gs => (a :: g) :: gs

/-- Decimal value of a digit character, `none` otherwise. -/
def charDigit? (c : Char) : Option Nat :=
  if c.isDigit then some (c.toNat - 48) else none

/-- Parse a nonempty all-digit character list as a natural number (models
Python `int()` on the digit strings produced by SLURM). -/
def digitsToNat? (l : List Char) : Option Nat :=
  if l.isEmpty then none
  else l.foldl (fun acc c => acc.bind (fun a => (charDigit? c).map (fun d => a * 10 + d)))
    (some 0)

/-- Parse one comma-separated block of a SLURM tasks-per-node distribution
string, as decoded by `_build_rank_map`: the compressed form
`<ntasks>(x<nnodes>)` (regex `(\d+)\(x(\d+)\)`) yields `(ntasks, nnodes)`,
a bare task count `<ntasks>` yields `(ntasks, 1)`; anything else is
invalid (`int()` would fail). -/
def parseNodeDef (s : List Char) : Option (Nat × Nat) :=
  match splitOnChar '(' s with
  | [a] => (digitsToNat? a).map (fun n => (n, 1))
  | [a, b] =>
    match b with
    | 'x' :: rest =>
      if rest.getLast? = some ')' then
        match digitsToNat? a, digitsToNat? rest.dropLast with
        | some nt, some nn => some (nt, nn)
        | _, _ => none
      else none
    | _ => none
  | _ => none

/-- Inner loops of `_build_rank_map`: for each of `nnodes` consecutive
nodes, append `ntasks` copies of the running node index, then advance
the node index. -/
def buildNodes : Nat → Nat → Nat → List Nat
  | _, _, 0 => []
  | idx, ntasks, nn + 1 => List.replicate ntasks idx ++ buildNodes (idx + 1) ntasks nn

/-- Main loop of `_build_rank_map` over the parsed node blocks, carrying
the running `node_index`. -/
def buildRankMapBlocks : Nat → List (Nat × Nat) → List Nat
  | _, [] => []
  | idx, (ntasks, nnodes) :: rest =>
    buildNodes idx ntasks nnodes ++ buildRankMapBlocks (idx + nnodes) rest

/-- Function `_build_rank_map` on a full distribution string: split on commas,
parse each block, expand left to right starting at node index 0. -/
def buildRankMap (s : String) : Option (List Nat) :=
  ((splitOnChar ',' s.data).mapM parseNodeDef).map (buildRankMapBlocks 0)

/-- Per-node task counts declared by a block list: a block
`(ntasks, nnodes)` contributes `nnodes` nodes with `ntasks` tasks each. -/
def blockTaskCounts (bs : List (Nat × Nat)) : List Nat :=
  bs.flatMap (fun b => List.replicate b.2 b.1)

/-- Specification rank map over per-node task counts: node `j`, hosting
`t_j` tasks, contributes `t_j` consecutive entries of value `j`, so that
the index into the resulting list is the global task rank and the value
is the node rank hosting that task. -/
def rankMapOfCounts (counts : List Nat) : List Nat :=
  counts.enum.flatMap (fun p => List.replicate p.2 p.1)

theorem buildNodes_eq (ntasks : Nat) :
    ∀ (nn idx : Nat),
      buildNodes idx ntasks nn
        = (List.enumFrom idx (List.replicate nn ntasks)).flatMap
            (fun p => List.replicate p.2 p.1) := by
  intro nn
  induction nn with
  | zero => intro idx; rfl
  | succ n ih =>
    intro idx
    simp only [List.replicate_succ, List.enumFrom_cons, List.flatMap_cons,
      buildNodes, ih (idx + 1)]

theorem buildRankMapBlocks_eq :
    ∀ (bs : List (Nat × Nat)) (idx : Nat),
      buildRankMapBlocks idx bs
        = (List.enumFrom idx (blockTaskCounts bs)).flatMap
            (fun p => List.replicate p.2 p.1) := by
  intro bs
  induction bs with
  | nil => intro idx; rfl
  | cons hd tl ih =>
    intro idx
    obtain ⟨nt, nn⟩ := hd
    simp only [buildRankMapBlocks, blockTaskCounts, List.flatMap_cons,
      List.enumFrom_append, List.flatMap_append, List.length_replicate]
    rw [buildNodes_eq, ih (idx + nn)]
    rfl

/-- C1: for every valid distribution block list, the rank-map builder's
left-to-right expansion produces exactly one entry per global task rank
whose value is the node rank hosting that task (node `j` with `t_j` tasks
contributes `t_j` consecutive entries `j`); and the concrete string
`"4(x2),2"` expands to `[0,0,0,0,1,1,1,1,2,2]`. -/
theorem build_rank_map_correct :
    (∀ bs : List (Nat × Nat),
      buildRankMapBlocks 0 bs = rankMapOfCounts (blockTaskCounts bs)) ∧
    buildRankMap "4(x2),2" = some [0, 0, 0, 0, 1, 1, 1, 1, 2, 2] := by
  constructor
  · intro bs
    rw [rankMapOfCounts, List.enum, buildRankMapBlocks_eq]
  · decide

/-! ## Rank-map initialization policy (`SlurmManager.__init__`) -/

/-- Action taken for the rank map while a `SlurmManager` initializes:
either expand the distribution string locally (`_build_rank_map`), with
`publish = true` when the expansion is also serialized and written to the
store key `('cluster', 'rank_map')`, or fetch the published value with a
blocking read and parse it (`_load_rank_map`). -/
inductive RankMapInit where
  | build (publish : Bool)
  | loadBlocking
deriving DecidableEq, Repr

/-- Publication condition at the end of `_build_rank_map`: only a Setup
process on node rank 0 writes the serialized map to
`('cluster', 'rank_map')`. -/
def rankMapPublish (pt : ProcessType) (nodeRank : Int) : Bool :=
  decide (pt = ProcessType.SETUP ∧ nodeRank = 0)

/-- Rank-map phase of `SlurmManager.__init__`: with no job context
(`batchid == 0`) or for an `OTHER` process the constructor returns before
any rank-map handling; Setup, Launcher and Hypervisor processes call
`_build_rank_map` (expanding the distribution string locally); every
remaining process type calls `_load_rank_map` (blocking fetch of the
published map). -/
def rankMapInitPhase (batchid : Nat) (pt : ProcessType) (nodeRank : Int) :
    Option RankMapInit :=
  if batchid = 0 ∨ pt = ProcessType.OTHER then none
  else if pt = ProcessType.SETUP ∨ pt = ProcessType.LAUNCHER ∨
      pt = ProcessType.HYPERVISOR then
    some (RankMapInit.build (rankMapPublish pt nodeRank))
  else some RankMapInit.loadBlocking

/-- C2 counterexample: a Launcher process on node rank 1 of job 42
expands the distribution string itself (it calls `_build_rank_map`, not
the blocking fetch), refuting the claim that only the Setup process with
node rank 0 ever performs the expansion. -/
theorem rank_map_single_builder_counterexample :
    rankMapInitPhase 42 ProcessType.LAUNCHER 1
        = some (RankMapInit.build false) ∧
    ProcessType.LAUNCHER ≠ ProcessType.SETUP ∧
    ¬ (∀ (bid : Nat) (pt : ProcessType) (nodeRank : Int) (r : RankMapInit),
        rankMapInitPhase bid pt nodeRank = some r →
        ((∃ p, r = RankMapInit.build p) ↔
          (pt = ProcessType.SETUP ∧ nodeRank = 0))) := by
  refine ⟨by decide, by decide, fun h => ?_⟩
  have := (h 42 ProcessType.LAUNCHER 1 (RankMapInit.build false)
    (by decide)).mp ⟨false, rfl⟩
  exact absurd this.1 (by decide)

/-- C2 amended: Setup, Launcher and Hypervisor processes all expand the
distribution string locally; the serialized map is published (written to
`('cluster', 'rank_map')`) by exactly the Setup process with node rank 0;
and exactly the remaining (User) processes obtain the map by fetching the
published value with a blocking read, never expanding the string
themselves. -/
theorem rank_map_builder_policy (batchid : Nat) (pt : ProcessType)
    (nodeRank : Int) (r : RankMapInit)
    (h : rankMapInitPhase batchid pt nodeRank = some r) :
    ((∃ p, r = RankMapInit.build p) ↔
      (pt = ProcessType.SETUP ∨ pt = ProcessType.LAUNCHER ∨
        pt = ProcessType.HYPERVISOR)) ∧
    (r = RankMapInit.build true ↔
      (pt = ProcessType.SETUP ∧ nodeRank = 0)) ∧
    (r = RankMapInit.loadBlocking ↔ pt = ProcessType.USER) := by
  by_cases hb : batchid = 0 ∨ pt = ProcessType.OTHER
  · simp [rankMapInitPhase, hb] at h
  · cases pt with
    | SETUP =>
      simp only [rankMapInitPhase, hb, if_false, if_pos (Or.inl rfl)] at h
      rw [← Option.some_inj.mp h]
      refine ⟨⟨fun _ => Or.inl rfl, fun _ => ⟨_, rfl⟩⟩, ?_, by simp⟩
      constructor
      · intro hb'
        have := RankMapInit.build.inj hb'
        exact ⟨rfl, by simpa [rankMapPublish] using this⟩
      · intro ⟨_, hnr⟩
        simp [rankMapPublish, hnr]
    | LAUNCHER =>
      simp only [rankMapInitPhase, hb, if_false,
        if_pos (Or.inr (Or.inl rfl))] at h
      rw [← Option.some_inj.mp h]
      refine ⟨⟨fun _ => Or.inr (Or.inl rfl), fun _ => ⟨_, rfl⟩⟩, ?_, by simp⟩
      simp [rankMapPublish]
    | HYPERVISOR =>
      simp only [rankMapInitPhase, hb, if_false,
        if_pos (Or.inr (Or.inr rfl))] at h
      rw [← Option.some_inj.mp h]
      refine ⟨⟨fun _ => Or.inr (Or.inr rfl), fun _ => ⟨_, rfl⟩⟩, ?_, by simp⟩
      simp [rankMapPublish]
    | USER =>
      simp only [rankMapInitPhase, hb, if_false] at h
      rw [if_neg (by simp)] at h
      rw [← Option.some_inj.mp h]
      simp
    | OTHER =>
      simp at hb

/-- C2 amended witness: concrete instantiation — a User process of job 3
loads the map with a blocking read. -/
theorem rank_map_builder_policy_witness :
    rankMapInitPhase 3 ProcessType.USER 2 = some RankMapInit.loadBlocking ∧
    (RankMapInit.loadBlocking = RankMapInit.loadBlocking ↔
      ProcessType.USER = ProcessType.USER) :=
  ⟨by decide,
    (rank_map_builder_policy 3 ProcessType.USER 2 RankMapInit.loadBlocking
      (by decide)).2.2⟩

/-! ## `get_rank_on_host` -/

/-- Backward scan of `get_rank_on_host`: starting at index `i` and
scanning toward index 0, count consecutive entries equal to `host`; the
scan stops at the first differing entry or when the index would become
negative (loop guard `rank - rank_on_host >= 0`). -/
def backRunCount (m : List Nat) (host : Nat) : Nat → Nat
  | 0 => if m.getD 0 0 = host then 1 else 0
  | i + 1 => if m.getD (i + 1) 0 = host then backRunCount m host i + 1 else 0

/-- Method `SlurmManager.get_rank_on_host`: scan backward from `rank` while
entries equal `m[rank]`, then return the number of loop iterations minus
one. -/
def get_rank_on_host (m : List Nat) (rank : Nat) : Nat :=
  backRunCount m (m.getD rank 0) rank - 1

/-- Contiguity invariant on a rank map (spec §3): tasks on the same node
occupy a contiguous range of ranks, i.e. between two equal entries every
entry is equal to them. -/
def Contiguous (m : List Nat) : Prop :=
  ∀ k, k < m.length → ∀ j, j ≤ k → ∀ i, i ≤ j →
    m.getD i 0 = m.getD k 0 → m.getD j 0 = m.getD k 0

instance (m : List Nat) : Decidable (Contiguous m) := by
  unfold Contiguous
  infer_instance

theorem backRunCount_of_ne (m : List Nat) (host : Nat) (r : Nat)
    (h : m.getD r 0 ≠ host) : backRunCount m host r = 0 := by
  cases r with
  | zero => simp only [backRunCount, if_neg h]
  | succ i => simp only [backRunCount, if_neg h]

theorem backRunCount_eq_countP (m : List Nat) (hc : Contiguous m) :
    ∀ r, r < m.length →
      backRunCount m (m.getD r 0) r
        = (List.range (r + 1)).countP (fun j => m.getD j 0 == m.getD r 0) := by
  intro r
  induction r with
  | zero =>
    intro _
    simp [backRunCount, List.range_succ, List.countP_append, List.countP_cons]
  | succ n ih =>
    intro hlen
    have hn : n < m.length := Nat.lt_of_succ_lt hlen
    have hstep : backRunCount m (m.getD (n + 1) 0) (n + 1)
        = backRunCount m (m.getD (n + 1) 0) n + 1 := by
      simp [backRunCount]
    rw [hstep, List.range_succ, List.countP_append]
    have hone : (List.countP (fun j => m.getD j 0 == m.getD (n + 1) 0) [n + 1]) = 1 := by
      simp [List.countP_cons]
    rw [hone]
    by_cases he : m.getD n 0 = m.getD (n + 1) 0
    · rw [← he, ih hn]
    · rw [backRunCount_of_ne m _ n he]
      have hzero :
          (List.range (n + 1)).countP (fun j => m.getD j 0 == m.getD (n + 1) 0) = 0 := by
        rw [List.countP_eq_zero]
        intro j hj
        simp only [beq_iff_eq]
        intro hjv
        exact he (hc (n + 1) hlen n (Nat.le_succ n) j
          (Nat.lt_succ_iff.mp (List.mem_range.mp hj)) hjv)
      rw [hzero]

/-- C4: on a rank map satisfying the contiguity invariant, for every
valid rank, `get_rank_on_host` returns the zero-based offset of that
rank within the contiguous block of ranks sharing its node — the number
of earlier ranks hosted on the same node (0 for the first task on its
host, incrementing by exactly 1 for each subsequent one). -/
theorem get_rank_on_host_offset (m : List Nat) (hc : Contiguous m)
    (rank : Nat) (hr : rank < m.length) :
    get_rank_on_host m rank
      = (List.range rank).countP (fun j => m.getD j 0 == m.getD rank 0) := by
  unfold get_rank_on_host
  rw [backRunCount_eq_countP m hc rank hr, List.range_succ, List.countP_append]
  simp [List.countP_cons]

/-- C4 witness: in the example map `[0,0,0,0,1,1,1,1,2,2]`, rank 5 is at
offset 1 within its host block. -/
theorem get_rank_on_host_offset_witness :
    Contiguous [0, 0, 0, 0, 1, 1, 1, 1, 2, 2] ∧
    get_rank_on_host [0, 0, 0, 0, 1, 1, 1, 1, 2, 2] 5 = 1 :=
  ⟨by decide,
    (get_rank_on_host_offset [0, 0, 0, 0, 1, 1, 1, 1, 2, 2] (by decide) 5
      (by decide)).trans (by decide)⟩

/-! ## Credential renewal (`_try_renew_credential`, `_retry_on_cred_expiry`) -/

/-- Shape of an etcd exception payload as inspected by
`_try_renew_credential`: `hasGet` models `hasattr(e.payload, "get")`
(whether the payload is a dict); the numeric fields model
`payload.get("errorCode", 0)`, `payload.get("error_code", 0)` and
`payload.get("status", 0)`. -/
structure EtcdPayload where
  hasGet : Bool
  errorCode : Nat
  error_code : Nat
  status : Nat
deriving DecidableEq, Repr

/-- The authentication-expired test of `_try_renew_credential`. -/
def isAuthExpired (p : EtcdPayload) : Bool :=
  p.hasGet && (p.errorCode == 110 || p.error_code == 110 || p.status == 401)

/-- Cooldown between credential renewals, in seconds
(`datetime.timedelta(seconds=15)` in `_try_renew_credential`). -/
def CRED_RENEW_COOLDOWN : Nat := 15

/-- Outcome of `_try_renew_credential`: renew the credential (resetting
`_last_cred_renew` to the current time and storing the fresh credential
on the connection) and let the wrapper retry; raise
`KeyCredentialError('access denied')`; or re-raise the original etcd
exception unchanged. -/
inductive RenewOutcome where
  | renewed (newLastRenew : Nat) (newCred : String)
  | credError
  | propagateErr (p : EtcdPayload)
deriving DecidableEq, Repr

/-- Method `SlurmManager._try_renew_credential` over explicit state: `now` is
the current clock (seconds), `lastRenew` the stored `_last_cred_renew`,
`fresh` the credential `_get_credential()` would produce. -/
def tryRenewCredential (now lastRenew : Nat) (fresh : String)
    (p : EtcdPayload) : RenewOutcome :=
  if isAuthExpired p then
    if CRED_RENEW_COOLDOWN < now - lastRenew then
      RenewOutcome.renewed now fresh
    else
      RenewOutcome.credError
  else
    RenewOutcome.propagateErr p

/-- Errors surfaced by a store call wrapped with `_retry_on_cred_expiry`:
a `KeyCredentialError` from the cooldown branch, or the original etcd
exception re-raised. -/
inductive StoreCallErr where
  | keyCredentialError
  | etcdError (p : EtcdPayload)
deriving DecidableEq, Repr

/-- Decorator `_retry_on_cred_expiry`: run the wrapped call in a loop; on an etcd
exception run `_try_renew_credential`, which either renews and lets the
loop retry the operation, or raises. Each scripted attempt provides the
clock value at which its exception would be handled, the fresh
credential a renewal would fetch, and the call's outcome. Returns the
result together with the final `(lastRenew, credential)` connection
state, or `none` when the script is exhausted while still retrying. -/
def retryOnCredExpiry {α : Type} (lastRenew : Nat) (cred : String) :
    List (Nat × String × Except EtcdPayload α) →
      Option (Except StoreCallErr α × Nat × String)
  | [] => none
  | (now, fresh, out) :: rest =>
    match out with
    | Except.ok a => some (Except.ok a, lastRenew, cred)
    | Except.error p =>
      match tryRenewCredential now lastRenew fresh p with
      | RenewOutcome.renewed l c => retryOnCredExpiry l c rest
      | RenewOutcome.credError =>
        some (Except.error StoreCallErr.keyCredentialError, lastRenew, cred)
      | RenewOutcome.propagateErr q =>
        some (Except.error (StoreCallErr.etcdError q), lastRenew, cred)

/-- C3: on an authentication-expired store failure, the wrapper renews
the credential, updates the connection state, resets the cooldown timer
and retries the operation only when strictly more than 15 seconds have
elapsed since the last renewal; within the cooldown it fails immediately
with a credential error instead of renewing; and a failure without the
authentication-expired signal propagates unchanged. -/
theorem credential_renewal_cooldown {α : Type} (now lastRenew : Nat)
    (cred fresh : String) (p : EtcdPayload)
    (rest : List (Nat × String × Except EtcdPayload α)) :
    (isAuthExpired p = true → 15 < now - lastRenew →
      tryRenewCredential now lastRenew fresh p
          = RenewOutcome.renewed now fresh ∧
      retryOnCredExpiry lastRenew cred ((now, fresh, Except.error p) :: rest)
          = retryOnCredExpiry now fresh rest) ∧
    (isAuthExpired p = true → now - lastRenew ≤ 15 →
      tryRenewCredential now lastRenew fresh p = RenewOutcome.credError ∧
      retryOnCredExpiry lastRenew cred ((now, fresh, Except.error p) :: rest)
          = some (Except.error StoreCallErr.keyCredentialError,
              lastRenew, cred)) ∧
    (isAuthExpired p = false →
      retryOnCredExpiry lastRenew cred ((now, fresh, Except.error p) :: rest)
          = some (Except.error (StoreCallErr.etcdError p), lastRenew, cred)) := by
  refine ⟨fun ha hd => ?_, fun ha hd => ?_, fun ha => ?_⟩
  · have ht : tryRenewCredential now lastRenew fresh p
        = RenewOutcome.renewed now fresh := by
      simp [tryRenewCredential, ha, CRED_RENEW_COOLDOWN, hd]
    exact ⟨ht, by simp [retryOnCredExpiry, ht]⟩
  · have ht : tryRenewCredential now lastRenew fresh p
        = RenewOutcome.credError := by
      simp [tryRenewCredential, ha, CRED_RENEW_COOLDOWN, Nat.not_lt_of_le hd]
    exact ⟨ht, by simp [retryOnCredExpiry, ht]⟩
  · have ht : tryRenewCredential now lastRenew fresh p
        = RenewOutcome.propagateErr p := by
      simp [tryRenewCredential, ha]
    simp [retryOnCredExpiry, ht]

/-- C3 witness: concrete two-failure scenario. The first
authentication-expired failure at t=20 (last renewal t=0) renews and
retries; a second one at t=30, within 15s of the renewal, fails with a
credential error; one at t=40 (20s after the renewal) renews again. -/
theorem credential_renewal_cooldown_witness :
    (tryRenewCredential 20 0 "c1" ⟨true, 110, 0, 0⟩
        = RenewOutcome.renewed 20 "c1" ∧
      retryOnCredExpiry (α := Nat) 0 "c0"
          [(20, "c1", Except.error ⟨true, 110, 0, 0⟩)]
        = retryOnCredExpiry 20 "c1" []) ∧
    (tryRenewCredential 30 20 "c2" ⟨true, 110, 0, 0⟩
        = RenewOutcome.credError ∧
      retryOnCredExpiry (α := Nat) 20 "c1"
          [(30, "c2", Except.error ⟨true, 110, 0, 0⟩)]
        = some (Except.error StoreCallErr.keyCredentialError, 20, "c1")) ∧
    (tryRenewCredential 40 20 "c3" ⟨true, 110, 0, 0⟩
        = RenewOutcome.renewed 40 "c3" ∧
      retryOnCredExpiry (α := Nat) 20 "c2"
          [(40, "c3", Except.error ⟨true, 110, 0, 0⟩)]
        = retryOnCredExpiry 40 "c3" []) :=
  ⟨(credential_renewal_cooldown 20 0 "c0" "c1" ⟨true, 110, 0, 0⟩ []).1
      (by decide) (by decide),
    (credential_renewal_cooldown 30 20 "c1" "c2" ⟨true, 110, 0, 0⟩ []).2.1
      (by decide) (by decide),
    (credential_renewal_cooldown 40 20 "c2" "c3" ⟨true, 110, 0, 0⟩ []).1
      (by decide) (by decide)⟩

/-! ## Key namespace resolution (`get_key_path`, `_only_in_a_job`) -/

/-- Errors raised by `get_key_path`: `KeyError(key_type)` for an unknown
scope (a programmer error) and the distinguished `NoJobError` raised by
`_only_in_a_job` when a job-relative scope is used while
`batchid == 0`. -/
inductive KeyPathError where
  | keyError (keyType : String)
  | noJobError
deriving DecidableEq, Repr

/-- Method `SlurmManager.get_key_path` as a pure function of scope (`keyType`),
job identity (`batchid`, where 0 means no job), user identity
(`batchuser`) and key. `_only_in_a_job` raises `NoJobError` exactly when
`batchid = 0`. -/
def get_key_path (batchid : Nat) (batchuser : String)
    (keyType key : String) : Except KeyPathError String :=
  if keyType = "global" then
    Except.ok ("/pcocc/global/" ++ key)
  else if keyType = "global/user" then
    Except.ok ("/pcocc/global/users/" ++ batchuser ++ "/" ++ key)
  else if keyType = "cluster" then
    if batchid = 0 then Except.error KeyPathError.noJobError
    else Except.ok ("/pcocc/cluster/" ++ toString batchid ++ "/" ++ key)
  else if keyType = "cluster/user" then
    if batchid = 0 then Except.error KeyPathError.noJobError
    else Except.ok ("/pcocc/cluster/users/" ++ batchuser ++ "/" ++
      toString batchid ++ "/" ++ key)
  else Except.error (KeyPathError.keyError keyType)

/-- C6: `get_key_path` produces exactly the four documented path shapes;
the global scopes succeed without job context, the job-relative scopes
fail with the distinguished no-job error exactly when `batchid = 0`, and
an unknown scope fails with the programmer error carrying that scope. -/
theorem get_key_path_shapes (batchid : Nat) (batchuser key keyType : String) :
    (get_key_path batchid batchuser "global" key
        = Except.ok ("/pcocc/global/" ++ key)) ∧
    (get_key_path batchid batchuser "global/user" key
        = Except.ok ("/pcocc/global/users/" ++ batchuser ++ "/" ++ key)) ∧
    (batchid ≠ 0 →
      get_key_path batchid batchuser "cluster" key
        = Except.ok ("/pcocc/cluster/" ++ toString batchid ++ "/" ++ key)) ∧
    (batchid ≠ 0 →
      get_key_path batchid batchuser "cluster/user" key
        = Except.ok ("/pcocc/cluster/users/" ++ batchuser ++ "/" ++
            toString batchid ++ "/" ++ key)) ∧
    (get_key_path 0 batchuser "cluster" key
        = Except.error KeyPathError.noJobError) ∧
    (get_key_path 0 batchuser "cluster/user" key
        = Except.error KeyPathError.noJobError) ∧
    (keyType ≠ "global" → keyType ≠ "global/user" → keyType ≠ "cluster" →
      keyType ≠ "cluster/user" →
      get_key_path batchid batchuser keyType key
        = Except.error (KeyPathError.keyError keyType)) := by
  refine ⟨by simp [get_key_path], by simp [get_key_path],
    fun h => ?_, fun h => ?_, by simp [get_key_path], by simp [get_key_path],
    fun h1 h2 h3 h4 => ?_⟩
  · simp [get_key_path, h]
  · simp [get_key_path, h]
  · simp [get_key_path, h1, h2, h3, h4]

/-- C6 witness: concrete paths for job 42 and user `alice`, the no-job
failure, and the unknown-scope failure. -/
theorem get_key_path_shapes_witness :
    get_key_path 42 "alice" "cluster" "rank_map"
        = Except.ok "/pcocc/cluster/42/rank_map" ∧
    get_key_path 0 "alice" "cluster" "rank_map"
        = Except.error KeyPathError.noJobError ∧
    get_key_path 42 "alice" "bogus" "k"
        = Except.error (KeyPathError.keyError "bogus") := by
  refine ⟨?_, ?_, ?_⟩
  · rw [(get_key_path_shapes 42 "alice" "rank_map" "bogus").2.2.1
      (by decide)]
    exact congrArg Except.ok (by decide)
  · exact (get_key_path_shapes 0 "alice" "rank_map" "bogus").2.2.2.2.1
  · exact (get_key_path_shapes 42 "alice" "k" "bogus").2.2.2.2.2.2
      (by decide) (by decide) (by decide) (by decide)

/-! ## Etcd store model and `atom_update_key` -/

/-- Model of the etcd keyspace as seen through `read_key_index`,
`write_key_new` and `write_key_index`: an association of paths to
`(value, modifiedIndex)` pairs, plus the store-wide `etcd_index`
(reported in the payload of a not-found error and bumped by every
mutation). Values are carried verbatim as the Python objects written
(`Option String`, `none` being Python `None`). -/
structure EtcdStore where
  entries : List (String × Option String × Nat)
  etcdIndex : Nat
deriving DecidableEq, Repr

/-- Look up a path in the store model. -/
def EtcdStore.find? (s : EtcdStore) (path : String) :
    Option (Option String × Nat) :=
  (s.entries.find? (fun e => e.1 == path)).map (fun e => e.2)

/-- Model of `read_key_index` with `realindex=True`: a present key yields
`(value, modifiedIndex)`; an absent key yields `None` and
the payload index of the not-found error (the store-wide index). -/
def readKeyIndexReal (s : EtcdStore) (path : String) : Option String × Nat :=
  match s.find? path with
  | none => (none, s.etcdIndex)
  | some (v, mi) => (v, mi)

/-- The race signals `atom_update_key` catches and retries on:
`EtcdAlreadyExist`, `EtcdKeyNotFound`, `EtcdCompareFailed`. -/
inductive EtcdWriteErr where
  | alreadyExist
  | keyNotFound
  | compareFailed
deriving DecidableEq, Repr

/-- Model of `write_key_new` (`prevExist=False`): fails with `EtcdAlreadyExist`
when the path is present, otherwise creates it with a fresh modification
index. -/
def writeKeyNew (s : EtcdStore) (path : String) (v : Option String) :
    Except EtcdWriteErr EtcdStore :=
  match s.find? path with
  | some _ => Except.error EtcdWriteErr.alreadyExist
  | none =>
    Except.ok ⟨(path, v, s.etcdIndex + 1) :: s.entries, s.etcdIndex + 1⟩

/-- Model of `write_key_index` (`prevIndex=index`): compare-and-swap against the
entry's current modification index. -/
def writeKeyIndex (s : EtcdStore) (path : String) (v : Option String)
    (index : Nat) : Except EtcdWriteErr EtcdStore :=
  match s.find? path with
  | none => Except.error EtcdWriteErr.keyNotFound
  | some (_, mi) =>
    if mi = index then
      Except.ok ⟨s.entries.map
        (fun e => if e.1 == path then (path, v, s.etcdIndex + 1) else e),
        s.etcdIndex + 1⟩
    else Except.error EtcdWriteErr.compareFailed

/-- Method `SlurmManager.atom_update_key`: read the key and its real index,
apply the caller's transform, then: if the key was absent and the new
value is `None`, return the transform's result with no write; if it was
absent and a new value is produced, create the key (`prevExist=False`);
if it was present, write with compare-and-swap on the index. Any race
signal restarts the whole cycle; `fuel` bounds the scripted iterations
(the Python loop is unbounded). -/
def atom_update_key {α : Type} : Nat → EtcdStore → String →
    (Option String → Option String × α) → Option (EtcdStore × α)
  | 0, _, _, _ => none
  | fuel + 1, s, path, func =>
    let (value, index) := readKeyIndexReal s path
    let (new_value, ret) := func value
    match value with
    | none =>
      match new_value with
      | none => some (s, ret)
      | some nv =>
        match writeKeyNew s path (some nv) with
        | Except.ok s' => some (s', ret)
        | Except.error _ => atom_update_key fuel s path func
    | some _ =>
      match writeKeyIndex s path new_value index with
      | Except.ok s' => some (s', ret)
      | Except.error _ => atom_update_key fuel s path func

/-- C5: when the target key is absent and the transform returns
`(None, result)`, `atom_update_key` performs no write — the store state
is returned unchanged, the key stays absent — and yields `result`. -/
theorem atom_update_absent_no_write {α : Type} (s : EtcdStore)
    (path : String) (func : Option String → Option String × α) (ret : α)
    (fuel : Nat) (habs : s.find? path = none)
    (hf : func none = (none, ret)) (hfuel : 0 < fuel) :
    atom_update_key fuel s path func = some (s, ret) := by
  cases fuel with
  | zero => exact absurd hfuel (by simp)
  | succ n => simp [atom_update_key, readKeyIndexReal, habs, hf]

/-- C5 witness: on the empty store, a transform returning `(None, 42)`
for the absent key leaves the store unchanged and returns 42. -/
theorem atom_update_absent_no_write_witness :
    EtcdStore.find? ⟨[], 0⟩ "k" = none ∧
    atom_update_key 1 ⟨[], 0⟩ "k" (fun _ => (none, (42 : Nat)))
        = some (⟨[], 0⟩, 42) :=
  ⟨rfl, atom_update_absent_no_write ⟨[], 0⟩ "k" _ 42 1 rfl rfl
    (by decide)⟩

/-! ## Blocking waits (`wait_key_index`, `wait_child_count`, `read_key`) -/

/-- A node returned by a successful `keyval_client.watch` call. -/
structure WatchNode where
  value : Option String
  modifiedIndex : Nat
  etcdIndex : Nat
deriving DecidableEq, Repr

/-- Scripted outcome of one `keyval_client.watch` call. -/
inductive WatchResp where
  | ok (node : WatchNode)
  | timedOut
  | indexCleared (payloadIndex : Nat)
  | clusterIdChanged (payloadIndex : Nat)
deriving DecidableEq, Repr

/-- Errors escaping `wait_key_index`: the `KeyTimeoutError` raised on a
watch timeout, and the Python `NameError` raised by the
`EtcdClusterIdChanged` handler — its body reads a variable `e` that the
clause never binds (`except etcd.EtcdClusterIdChanged:` lacks `as e`,
and the only binder of `e`, the `EtcdEventIndexCleared` clause, returns
before any later iteration could run). -/
inductive WaitErr where
  | keyTimeout (keyPath : String)
  | nameError (varName : String)
deriving DecidableEq, Repr

/-- Method `SlurmManager.wait_key_index` on one scripted watch outcome (every
branch of the source's `while True` body returns or raises, so exactly
one watch call happens per invocation). `index` and `timeout` model the
arguments the source forwards to `keyval_client.watch` (`index + 1`,
`timeout`); the scripted outcome abstracts the store's behaviour. -/
def wait_key_index (keyPath : String) (index timeout : Nat)
    (resp : WatchResp) : Except WaitErr (Option WatchNode × Nat) :=
  match index, timeout, resp with
  | _, _, WatchResp.ok node =>
    Except.ok (some node, max node.modifiedIndex node.etcdIndex)
  | _, _, WatchResp.timedOut => Except.error (WaitErr.keyTimeout keyPath)
  | _, _, WatchResp.indexCleared i => Except.ok (none, i)
  | _, _, WatchResp.clusterIdChanged _ =>
    Except.error (WaitErr.nameError "e")

/-- C7 (observed behaviour): the history-compaction signal
(`EtcdEventIndexCleared`) makes the wait return `(None, store index)`
non-fatally, as the claim states; but the cluster-identity-changed
signal (`EtcdClusterIdChanged`) raises `NameError` — the handler reads
the unbound variable `e` — so that signal escapes as a fatal error
instead of producing `(None, index)`. -/
theorem wait_key_index_signals (keyPath : String) (index timeout i : Nat) :
    wait_key_index keyPath index timeout (WatchResp.indexCleared i)
        = Except.ok (none, i) ∧
    wait_key_index keyPath index timeout (WatchResp.clusterIdChanged i)
        = Except.error (WaitErr.nameError "e") :=
  ⟨rfl, rfl⟩

/-- Directory listing as consumed by `wait_child_count` through
`read_dir_index`. -/
structure EtcdDir where
  children : List String
  modifiedIndex : Nat
  etcdIndex : Nat
deriving DecidableEq, Repr

/-- Scripted outcome of one `read_dir_index` call. -/
inductive ReadDirResp where
  | found (d : EtcdDir)
  | notFound (payloadIndex : Nat)
deriving DecidableEq, Repr

/-- Model of `read_dir_index` on a scripted outcome: the directory (or `None`)
and the index used as a watch baseline. -/
def read_dir_index : ReadDirResp → Option EtcdDir × Nat
  | ReadDirResp.found d => (some d, max d.modifiedIndex d.etcdIndex)
  | ReadDirResp.notFound i => (none, i)

/-- The `num_complete` computation of `wait_child_count`: the number of
children when the directory exists, else 0. -/
def numComplete : Option EtcdDir → Nat
  | some d => d.children.length
  | none => 0

/-- Per-attempt watch timeout used by `wait_child_count`
(`timeout=30`). -/
def WAIT_CHILD_COUNT_TIMEOUT : Nat := 30

/-- Method `SlurmManager.wait_child_count` over a script of store responses:
each loop iteration reads the directory, returns it when the child
count equals `count`, and otherwise waits on the directory's index
(per-attempt timeout `WAIT_CHILD_COUNT_TIMEOUT`) before re-checking.
`none` when the script is exhausted while still looping. -/
def wait_child_count (keyPath : String) (count : Nat) :
    List (ReadDirResp × WatchResp) →
      Option (Except WaitErr (Option EtcdDir))
  | [] => none
  | (r, w) :: rest =>
    let (ret, lastIndex) := read_dir_index r
    if numComplete ret = count then some (Except.ok ret)
    else
      match wait_key_index keyPath lastIndex WAIT_CHILD_COUNT_TIMEOUT w with
      | Except.ok _ => wait_child_count keyPath count rest
      | Except.error e => some (Except.error e)

/-- C8: `wait_child_count` returns the listing at once (consulting no
watch) when the first read's child count already equals the target;
otherwise it re-arms a wait with per-attempt timeout 30 and re-checks,
and as long as each wait is answered by a store change it loops until a
read's child count reaches the target, returning that listing. -/
theorem wait_child_count_immediate_or_loop (keyPath : String)
    (count : Nat) :
    (∀ (r : ReadDirResp) (w : WatchResp)
        (rest : List (ReadDirResp × WatchResp)),
      numComplete (read_dir_index r).1 = count →
      wait_child_count keyPath count ((r, w) :: rest)
          = some (Except.ok (read_dir_index r).1)) ∧
    (∀ (script : List (ReadDirResp × WatchResp)) (rlast : ReadDirResp)
        (wlast : WatchResp),
      (∀ p ∈ script, numComplete (read_dir_index p.1).1 ≠ count ∧
        ∃ node, p.2 = WatchResp.ok node) →
      numComplete (read_dir_index rlast).1 = count →
      wait_child_count keyPath count (script ++ [(rlast, wlast)])
          = some (Except.ok (read_dir_index rlast).1)) ∧
    WAIT_CHILD_COUNT_TIMEOUT = 30 := by
  refine ⟨fun r w rest h => ?_, fun script => ?_, rfl⟩
  · simp [wait_child_count, h]
  · induction script with
    | nil =>
      intro rlast wlast _ hlast
      simp [wait_child_count, hlast]
    | cons p rest ih =>
      intro rlast wlast hall hlast
      obtain ⟨hne, node, hok⟩ := hall p (List.mem_cons_self p rest)
      obtain ⟨r, w⟩ := p
      simp only at hok
      subst hok
      have : wait_child_count keyPath count
          (((r, WatchResp.ok node) :: rest) ++ [(rlast, wlast)])
          = wait_child_count keyPath count (rest ++ [(rlast, wlast)]) := by
        simp [wait_child_count, hne, wait_key_index]
      rw [this]
      exact ih rlast wlast
        (fun q hq => hall q (List.mem_cons_of_mem _ hq)) hlast

/-- C8 witness: waiting for 2 children — a first read sees 1 child, the
armed wait is answered by a change, and the re-check sees 2 children
and returns that listing. -/
theorem wait_child_count_immediate_or_loop_witness :
    numComplete (read_dir_index (ReadDirResp.found ⟨["a"], 3, 3⟩)).1 ≠ 2 ∧
    numComplete (read_dir_index (ReadDirResp.found ⟨["a", "b"], 4, 4⟩)).1
        = 2 ∧
    wait_child_count "/pcocc/cluster/7/done" 2
        [(ReadDirResp.found ⟨["a"], 3, 3⟩, WatchResp.ok ⟨some "x", 4, 4⟩),
          (ReadDirResp.found ⟨["a", "b"], 4, 4⟩, WatchResp.timedOut)]
        = some (Except.ok (some ⟨["a", "b"], 4, 4⟩)) :=
  ⟨by decide, by decide,
    (wait_child_count_immediate_or_loop "/pcocc/cluster/7/done" 2).2.1
      [(ReadDirResp.found ⟨["a"], 3, 3⟩, WatchResp.ok ⟨some "x", 4, 4⟩)]
      (ReadDirResp.found ⟨["a", "b"], 4, 4⟩) WatchResp.timedOut
      (by intro p hp
          simp only [List.mem_singleton] at hp
          subst hp
          exact ⟨by decide, ⟨⟨some "x", 4, 4⟩, rfl⟩⟩)
      (by decide)⟩

/-- Python truthiness of the `val` variable in `read_key` (a string or
`None`): `None` and the empty string are falsy. -/
def pyTruthy : Option String → Bool
  | none => false
  | some s => !s.isEmpty

/-- The waiting loop of `read_key` (`while not val`): each iteration
calls `wait_key_index`; a returned node object is truthy and ends the
loop (the function returns `node.value`), a `(None, index)` recovery
return keeps waiting with the fresh index, and a raised error
propagates. `none` when the script is exhausted while still waiting. -/
def readKeyLoop (keyPath : String) (timeout : Nat) :
    Nat → List WatchResp → Option (Except WaitErr (Option String))
  | _, [] => none
  | index, w :: rest =>
    match wait_key_index keyPath index timeout w with
    | Except.ok (some node, _) => some (Except.ok node.value)
    | Except.ok (none, i) => readKeyLoop keyPath timeout i rest
    | Except.error e => some (Except.error e)

/-- Method `SlurmManager.read_key`: read the key (scripted initial value `val`
and watch-baseline `index`); return `val` at once when it is truthy or
`blocking` is false; otherwise enter the waiting loop. -/
def read_key (keyPath : String) (val : Option String) (index : Nat)
    (blocking : Bool) (timeout : Nat) (waits : List WatchResp) :
    Option (Except WaitErr (Option String)) :=
  if pyTruthy val || !blocking then some (Except.ok val)
  else readKeyLoop keyPath timeout index waits

/-- C10: `read_key` distinguishes present from absent by truthiness of
the value, not key existence: for a key whose stored value is the empty
string, the non-blocking call returns the empty string, while the
blocking call does not return it — it behaves exactly as if the key
were absent, waiting for a further change (and returning nothing while
no change arrives). -/
theorem read_key_empty_string_truthiness (keyPath : String)
    (index timeout : Nat) (waits : List WatchResp) :
    read_key keyPath (some "") index false timeout waits
        = some (Except.ok (some "")) ∧
    read_key keyPath (some "") index true timeout waits
        = read_key keyPath none index true timeout waits ∧
    read_key keyPath (some "") index true timeout [] = none :=
  ⟨rfl, rfl, rfl⟩

/-! ## Password initialization (`_init_password`) -/

/-- The permission bits `_init_password` treats as loose:
`stat.S_IRGRP | stat.S_IWGRP | stat.S_IROTH | stat.S_IWOTH`. -/
def badPerms : Nat := 0o040 ||| 0o020 ||| 0o004 ||| 0o002

/-- Observable state of a password file: content and permission mode. -/
structure PwdFile where
  content : String
  mode : Nat
deriving DecidableEq, Repr

/-- Whitespace characters removed by Python `str.strip()`. -/
def isPyWhitespace (c : Char) : Bool :=
  c = ' ' || c = '\t' || c = '\n' || c = '\x0b' || c = '\x0c' || c = '\r'

/-- Python `str.strip()`: drop leading and trailing whitespace. -/
def pyStrip (s : String) : String :=
  String.mk (((s.data.dropWhile isPyWhitespace).reverse.dropWhile
    isPyWhitespace).reverse)

/-- Lowercase hex digit characters as produced by `binascii.b2a_hex`. -/
def hexChar (n : Nat) : Char :=
  if n < 10 then Char.ofNat (48 + n) else Char.ofNat (87 + n)

/-- Model of `binascii.b2a_hex`: two lowercase hex characters per input byte. -/
def b2aHex (bytes : List Nat) : String :=
  String.mk (bytes.flatMap (fun b => [hexChar (b / 16 % 16), hexChar (b % 16)]))

/-- Method `_init_password`, unprivileged branch (`os.getuid() != 0`), over
explicit state: `file` is the per-user secret file
(`~/.pcocc/.etcd-password` at `pwdPath`) or `none` when `os.stat` fails
with `ENOENT`; `randomBytes` scripts `os.urandom(ETCD_PASSWORD_BYTES)`.
Returns the cached password (`self._etcd_password`) together with the
resulting file state. The loose-permission warning is a log line only
and is elided; the mode passed to `os.open` for a generated file is
`0400`. -/
def initPasswordUnprivileged (procType : ProcessType) (pwdPath : String)
    (file : Option PwdFile) (randomBytes : List Nat) :
    Except String (String × PwdFile) :=
  match file with
  | some f =>
    let pw := pyStrip f.content
    if pw.length ≠ 2 * ETCD_PASSWORD_BYTES then
      Except.error ("password file " ++ pwdPath ++
        " is invalid, please delete it and allocate a new virual cluster")
    else Except.ok (pw, f)
  | none =>
    if procType = ProcessType.HYPERVISOR then
      Except.error "unable to read password file"
    else
      let pw := b2aHex randomBytes
      Except.ok (pw, ⟨pw, 0o400⟩)

theorem b2aHex_length (bytes : List Nat) :
    (b2aHex bytes).length = 2 * bytes.length := by
  induction bytes with
  | nil => rfl
  | cons b bs ih =>
    simp only [b2aHex, List.flatMap_cons, String.length] at ih ⊢
    simp only [List.length_append, List.length_cons, List.length_nil] at ih ⊢
    omega

/-- C9: under the persisted-secret strategy, an unprivileged
non-hypervisor process with no secret file generates a secret of exactly
the fixed encoded length (32 hex characters for 2 × 16 random bytes),
writes it to a new file whose mode `0400` has no permission bits outside
owner read/write, and caches it as the in-memory password; an existing
secret file whose stripped content length differs from that encoded
length fails with a credential error instructing the operator to delete
the stale file. -/
theorem init_password_spec (procType : ProcessType) (pwdPath : String)
    (randomBytes : List Nat) (f : PwdFile) :
    (procType ≠ ProcessType.HYPERVISOR →
      randomBytes.length = ETCD_PASSWORD_BYTES →
      initPasswordUnprivileged procType pwdPath none randomBytes
          = Except.ok (b2aHex randomBytes, ⟨b2aHex randomBytes, 0o400⟩) ∧
      (b2aHex randomBytes).length = 2 * ETCD_PASSWORD_BYTES ∧
      0o400 &&& badPerms = 0 ∧ 0o400 &&& 0o7177 = 0) ∧
    ((pyStrip f.content).length ≠ 2 * ETCD_PASSWORD_BYTES →
      initPasswordUnprivileged procType pwdPath (some f) randomBytes
          = Except.error ("password file " ++ pwdPath ++
              " is invalid, please delete it and allocate a new virual cluster")) := by
  constructor
  · intro hpt hlen
    refine ⟨?_, ?_, by decide, by decide⟩
    · simp [initPasswordUnprivileged, hpt]
    · rw [b2aHex_length, hlen]
  · intro hbad
    simp [initPasswordUnprivileged, hbad]

/-- C9 witness: 16 zero bytes produce the 32-character secret
`"000...0"` cached and written with mode `0400`; the stale file content
`"oops"` (stripped length 4) fails with the delete-and-reallocate
message. -/
theorem init_password_spec_witness :
    (initPasswordUnprivileged ProcessType.USER "/home/u/.pcocc/.etcd-password"
        none (List.replicate 16 0)
      = Except.ok ("00000000000000000000000000000000",
          ⟨"00000000000000000000000000000000", 0o400⟩) ∧
      (b2aHex (List.replicate 16 0)).length = 32) ∧
    initPasswordUnprivileged ProcessType.USER "/home/u/.pcocc/.etcd-password"
        (some ⟨"oops", 0o400⟩) (List.replicate 16 0)
      = Except.error ("password file /home/u/.pcocc/.etcd-password" ++
          " is invalid, please delete it and allocate a new virual cluster") := by
  have h := init_password_spec ProcessType.USER
    "/home/u/.pcocc/.etcd-password" (List.replicate 16 0) ⟨"oops", 0o400⟩
  obtain ⟨h1, h2, -, -⟩ := h.1 (by decide) (by decide)
  refine ⟨⟨?_, ?_⟩, ?_⟩
  · rw [h1]; exact congrArg Except.ok (by decide)
  · rw [h2]; decide
  · rw [h.2 (by decide)]; exact congrArg Except.error (by decide)

end Pcocc
